import Mathlib

/-!
Verification of the MCP server template's tool-execution core
(`mcp-server-template/internal/handlers/http_client.go` and
`mcp-server-template/internal/handlers/jsonrpc_handler.go`) against its
natural-language specification.

Shallow embedding conventions:
* Go's `interface{}` values decoded from JSON are modelled by `Value`
  (JSON numbers, which Go decodes as `float64`, are modelled by `Rat`;
  no claim depends on binary floating-point rounding).
* Go maps (`map[string]interface{}`, `map[string]string`, `url.Values`)
  are modelled as association lists with `alLookup` / `alSet` / `alErase`
  giving map semantics; a Go map's (unordered, unique-key) nature is
  expressed by `Nodup` hypotheses on the key list where a theorem needs it,
  and list order stands in for Go's arbitrary iteration order.
* External collaborators from the Go standard library that the core only
  calls through a narrow interface are modelled as parameters of the
  embedding, gathered in `Deps`: `text/template` execution (`expand`),
  `net/url.Parse` (`parseURL`), `os.Getenv` (`getenv`),
  `encoding/json.Unmarshal` into `interface{}` (`jsonParse`),
  `regexp.MatchString` (`matchString`), and the HTTP transport
  `http.Client.Do`, indexed by attempt number (`transport`).
* `http.Response.Body` is a read-once stream: `Body.Close()` followed by a
  read yields Go's `http.ErrBodyReadAfterClose`
  ("http: read on closed response body").  This is modelled by the
  `bodyClosed` flag on `HttpResponse` and `readBody`.
* Wall-clock behaviour (timeouts, backoff sleeps) is not modelled; a
  timed-out attempt is a transport error (`DoResult.err`).
-/

namespace Mcp

/-- Model of a Go `interface{}` value produced by `encoding/json` decoding:
JSON null, booleans, numbers (Go `float64`, modelled as `Rat`), strings,
arrays (`[]interface\x7b\x7d`) and objects (`map[string]interface\x7b\x7d`). -/
inductive Value where
  | vNull : Value
  | vBool (b : Bool) : Value
  | vNum (q : Rat) : Value
  | vStr (s : String) : Value
  | vArr (elems : List Value) : Value
  | vObj (fields : List (String × Value)) : Value

/-- Association-list lookup, modelling Go map indexing `m[k]`. -/
def alLookup {α : Type} : List (String × α) → String → Option α
  | [], _ => none
  | (k, v) :: rest, key => if k = key then some v else alLookup rest key

/-- Association-list update, modelling Go map assignment `m[k] = v`
(and `url.Values.Set`): replaces the first binding of the key, or appends. -/
def alSet {α : Type} : List (String × α) → String → α → List (String × α)
  | [], key, val => [(key, val)]
  | (k, v) :: rest, key, val =>
    if k = key then (k, val) :: rest else (k, v) :: alSet rest key val

/-- Association-list removal of a key's first binding (used only in frame
statements, not by the embedded code itself). -/
def alErase {α : Type} : List (String × α) → String → List (String × α)
  | [], _ => []
  | (k, v) :: rest, key => if k = key then rest else (k, v) :: alErase rest key

/-- The call-time argument map `map[string]interface\x7b\x7d`. -/
def ArgMap := List (String × Value)

/-- Whether `pat` is a prefix of the first character list. -/
def charsStartWith : List Char → List Char → Bool
  | _, [] => true
  | [], _ :: _ => false
  | c :: cs, d :: ds => c = d && charsStartWith cs ds

/-- Whether `pat` occurs as a contiguous run in the character list. -/
def charsContains : List Char → List Char → Bool
  | [], pat => pat.isEmpty
  | c :: rest, pat => charsStartWith (c :: rest) pat || charsContains rest pat

/-- Go `strings.Contains`: true when `sub` occurs in `s` (always true for an
empty `sub`). -/
def goStringContains (s sub : String) : Bool :=
  charsContains s.toList sub.toList

/-- ASCII uppercasing of one character (the HTTP methods the handlers
uppercase are ASCII; Go's Unicode-aware `strings.ToUpper` agrees there). -/
def goUpperChar (c : Char) : Char :=
  if 'a' ≤ c ∧ c ≤ 'z' then Char.ofNat (c.toNat - 32) else c

/-- Go `strings.ToUpper` on the method strings the handlers see. -/
def goToUpper (s : String) : String :=
  String.mk (s.toList.map goUpperChar)

/-- Go `fmt`'s `%T` verb on the `interface\x7b\x7d` values that reach the
validator (JSON-decoded data). -/
def goTypeName : Value → String
  | .vNull => "<nil>"
  | .vBool _ => "bool"
  | .vNum _ => "float64"
  | .vStr _ => "string"
  | .vArr _ => "[]interface \x7b\x7d"
  | .vObj _ => "map[string]interface \x7b\x7d"

/-- Decimal-digit run to a natural number. -/
def digitsVal (cs : List Char) : Nat :=
  cs.foldl (fun acc c => acc * 10 + (c.toNat - 48)) 0

/-- Model of Go `strconv.ParseFloat(s, 64)` on decimal notation: optional
sign, integer digits, optional fraction, optional exponent, whole string
consumed.  The value is kept exact as a rational; `Inf`/`NaN`/hex-float
spellings and float64 overflow are outside the claims and unmodelled. -/
def goParseFloat (s : String) : Option Rat :=
  let cs := s.toList
  let signed : Bool × List Char :=
    match cs with
    | '-' :: rest => (true, rest)
    | '+' :: rest => (false, rest)
    | _ => (false, cs)
  let neg := signed.1
  let afterSign := signed.2
  let ipSplit := afterSign.span Char.isDigit
  let ip := ipSplit.1
  let afterInt := ipSplit.2
  let fpSplit : List Char × List Char :=
    match afterInt with
    | '.' :: rest => rest.span Char.isDigit
    | _ => ([], afterInt)
  let fp := fpSplit.1
  let afterFrac : List Char :=
    match afterInt with
    | '.' :: _ => fpSplit.2
    | _ => afterInt
  if ip.isEmpty && fp.isEmpty then none
  else
    let mant : Rat :=
      (digitsVal ip : Rat) + (digitsVal fp : Rat) / ((10 : Rat) ^ fp.length)
    match afterFrac with
    | [] => some (if neg then -mant else mant)
    | e :: rest =>
      if e = 'e' ∨ e = 'E' then
        let esigned : Bool × List Char :=
          match rest with
          | '-' :: r => (true, r)
          | '+' :: r => (false, r)
          | _ => (false, rest)
        let edSplit := esigned.2.span Char.isDigit
        if edSplit.1.isEmpty ∨ ¬ edSplit.2.isEmpty then none
        else
          let scale : Rat := (10 : Rat) ^ digitsVal edSplit.1
          let v := if esigned.1 then mant / scale else mant * scale
          some (if neg then -v else v)
      else none

/-- Rendering of a Go `float64` (`%v` and `encoding/json` agree on it for the
values the claims exercise): integral values print without a decimal point;
non-integral values are abstracted as `num/den` (Go's shortest-decimal
formatting of non-integral floats is not load-bearing for any claim). -/
def goFormatRat (q : Rat) : String :=
  if q.den = 1 then toString q.num
  else toString q.num ++ "/" ++ toString q.den

mutual
/-- Go `fmt.Sprintf("%v", value)` on a JSON-decoded `interface\x7b\x7d`. -/
def goFormatValue : Value → String
  | .vNull => "<nil>"
  | .vBool b => cond b "true" "false"
  | .vNum q => goFormatRat q
  | .vStr s => s
  | .vArr xs => "[" ++ goFormatValueList xs ++ "]"
  | .vObj fs => "map[" ++ goFormatValueFields fs ++ "]"

/-- Space-separated `%v` rendering of a slice's elements. -/
def goFormatValueList : List Value → String
  | [] => ""
  | [x] => goFormatValue x
  | x :: xs => goFormatValue x ++ " " ++ goFormatValueList xs

/-- Space-separated `key:value` rendering of a map's entries. -/
def goFormatValueFields : List (String × Value) → String
  | [] => ""
  | [kv] => kv.1 ++ ":" ++ goFormatValue kv.2
  | kv :: fs => kv.1 ++ ":" ++ goFormatValue kv.2 ++ " " ++ goFormatValueFields fs
end

/-- JSON string escaping as `encoding/json` performs it for the characters the
claims exercise (quote, backslash, the common control escapes). -/
def jsonEscapeChar (c : Char) : String :=
  if c = '"' then "\\\""
  else if c = '\\' then "\\\\"
  else if c = '\n' then "\\n"
  else if c = '\t' then "\\t"
  else String.singleton c

/-- JSON encoding of a string literal. -/
def jsonEncodeString (s : String) : String :=
  "\"" ++ String.join (s.toList.map jsonEscapeChar) ++ "\""

mutual
/-- Model of Go `json.Marshal` on a JSON-decoded value.  Go emits object keys
in sorted order; no claim depends on byte-level key order, so the association
list's order stands in for it. -/
def jsonEncodeValue : Value → String
  | .vNull => "null"
  | .vBool b => cond b "true" "false"
  | .vNum q => goFormatRat q
  | .vStr s => jsonEncodeString s
  | .vArr xs => "[" ++ jsonEncodeList xs ++ "]"
  | .vObj fs => "\x7b" ++ jsonEncodeFields fs ++ "\x7d"

/-- Comma-separated encodings of an array's elements. -/
def jsonEncodeList : List Value → String
  | [] => ""
  | [x] => jsonEncodeValue x
  | x :: xs => jsonEncodeValue x ++ "," ++ jsonEncodeList xs

/-- Comma-separated `"key":value` encodings of an object's fields. -/
def jsonEncodeFields : List (String × Value) → String
  | [] => ""
  | [kv] => jsonEncodeString kv.1 ++ ":" ++ jsonEncodeValue kv.2
  | kv :: fs =>
    jsonEncodeString kv.1 ++ ":" ++ jsonEncodeValue kv.2 ++ "," ++ jsonEncodeFields fs
end

/-- Go `json.Marshal(params)` on the argument map (`buildRequest`'s default
body for non-GET requests). -/
def jsonMarshal (args : ArgMap) : String :=
  jsonEncodeValue (.vObj args)

/-- ParameterValidation from `internal/config/types.go`: per-parameter
constraint set. -/
structure ParameterValidation where
  minLength : Option Int := none
  maxLength : Option Int := none
  pattern : Option String := none
  minValue : Option Rat := none
  maxValue : Option Rat := none
  enum : List String := []

/-- ParameterConfig from `internal/config/types.go`. -/
structure ParameterConfig where
  name : String
  type : String
  description : String := ""
  required : Bool := false
  default : Option Value := none
  validation : Option ParameterValidation := none

/-- AuthConfig from `internal/config/types.go`. -/
structure AuthConfig where
  type : String
  token : String := ""
  username : String := ""
  password : String := ""
  headers : List (String × String) := []
  envVar : String := ""

/-- ValidationConfig from `internal/config/types.go`: response validation
rules (the `schema` field is carried but unused by the handlers). -/
structure ValidationConfig where
  schema : String := ""
  statusCodes : List Int := []
  requiredFields : List String := []

/-- ToolConfig from `internal/config/types.go` (the fields the handlers
read; `timeout` is carried but wall-clock behaviour is unmodelled). -/
structure ToolConfig where
  name : String
  description : String := ""
  endpoint : String
  method : String
  headers : List (String × String) := []
  queryParams : List (String × String) := []
  bodyTemplate : String := ""
  contentType : String := ""
  parameters : List ParameterConfig := []
  returnType : String := ""
  timeout : Int := 0
  retries : Nat := 0
  auth : Option AuthConfig := none
  validation : Option ValidationConfig := none

/-- Go `%v` of a `[]string` (used in the enum-violation error message). -/
def goFormatStringSlice (xs : List String) : String :=
  "[" ++ String.intercalate " " xs ++ "]"

/-- Go `%f` rendering of a float64 bound in error messages: six decimals.
Truncation stands in for fmt's rounding (no claim reads these digits). -/
def goFormatF (q : Rat) : String :=
  let sign := if q < 0 then "-" else ""
  let a := |q|
  let ip := a.floor.toNat
  let fr := ((a - (ip : Rat)) * 1000000).floor.toNat
  let frs := toString fr
  let pad := String.join (List.replicate (6 - frs.length) "0")
  sign ++ toString ip ++ "." ++ pad ++ frs

/-- String-constraint checks of `validateParameterValue` (min/max length,
pattern, enum), in the source's order.  Go's `len(str)` is the UTF-8 byte
length.  `matchString` models `regexp.MatchString`. -/
def checkStringConstraints (matchString : String → String → Except String Bool)
    (pv : ParameterValidation) (str : String) : Except String Unit := do
  match pv.minLength with
  | some m =>
    if (str.utf8ByteSize : Int) < m then
      throw ("string too short, minimum length is " ++ toString m)
    else pure ()
  | none => pure ()
  match pv.maxLength with
  | some m =>
    if (str.utf8ByteSize : Int) > m then
      throw ("string too long, maximum length is " ++ toString m)
    else pure ()
  | none => pure ()
  match pv.pattern with
  | some pat =>
    match matchString pat str with
    | .error e => throw ("invalid pattern: " ++ e)
    | .ok matched =>
      if !matched then throw ("string does not match pattern " ++ pat)
      else pure ()
  | none => pure ()
  match pv.enum with
  | [] => pure ()
  | es =>
    if es.contains str then pure ()
    else throw ("value must be one of: " ++ goFormatStringSlice es)

/-- Numeric coercion step of `validateParameterValue`'s `number` case: a Go
`float64` is taken as is, a string goes through `strconv.ParseFloat` (Go's
`case int` cannot arise for JSON-decoded values). -/
def numValueOf : Value → Except String Rat
  | .vNum q => .ok q
  | .vStr s =>
    match goParseFloat s with
    | some q => .ok q
    | none =>
      .error ("cannot convert string to number: strconv.ParseFloat: parsing \""
        ++ s ++ "\": invalid syntax")
  | v => .error ("expected number, got " ++ goTypeName v)

/-- Numeric bound checks of `validateParameterValue`. -/
def checkNumberConstraints (pv : ParameterValidation) (num : Rat) :
    Except String Unit := do
  match pv.minValue with
  | some m =>
    if num < m then throw ("number too small, minimum value is " ++ goFormatF m)
    else pure ()
  | none => pure ()
  match pv.maxValue with
  | some m =>
    if num > m then throw ("number too large, maximum value is " ++ goFormatF m)
    else pure ()
  | none => pure ()

/-- `validateParameterValue` from `http_client.go` (ToolHandler): type check
then constraint checks, switching on the declared type string; an unknown
type string falls through and accepts the value. -/
def validateParameterValue (matchString : String → String → Except String Bool)
    (param : ParameterConfig) (value : Value) : Except String Unit :=
  match param.type with
  | "string" =>
    match value with
    | .vStr str =>
      match param.validation with
      | some pv => checkStringConstraints matchString pv str
      | none => .ok ()
    | v => .error ("expected string, got " ++ goTypeName v)
  | "number" =>
    match numValueOf value with
    | .error e => .error e
    | .ok num =>
      match param.validation with
      | some pv => checkNumberConstraints pv num
      | none => .ok ()
  | "boolean" =>
    match value with
    | .vBool _ => .ok ()
    | v => .error ("expected boolean, got " ++ goTypeName v)
  | "object" =>
    match value with
    | .vObj _ => .ok ()
    | v => .error ("expected object, got " ++ goTypeName v)
  | "array" =>
    match value with
    | .vArr _ => .ok ()
    | v => .error ("expected array, got " ++ goTypeName v)
  | _ => .ok ()

/-- The parameter loop of `validateParameters`: for each declared parameter,
a missing required one is an error; a supplied one is value-checked; an
absent optional one with a default has the default written into the argument
map (Go mutates the caller's map; the model returns the updated map). -/
def validateParamsLoop (matchString : String → String → Except String Bool) :
    List ParameterConfig → ArgMap → Except String ArgMap
  | [], args => .ok args
  | p :: ps, args =>
    match alLookup args p.name with
    | some v =>
      match validateParameterValue matchString p v with
      | .error e =>
        .error ("parameter " ++ p.name ++ " validation failed: " ++ e)
      | .ok _ => validateParamsLoop matchString ps args
    | none =>
      if p.required then
        .error ("required parameter " ++ p.name ++ " is missing")
      else
        match p.default with
        | some d => validateParamsLoop matchString ps (alSet args p.name d)
        | none => validateParamsLoop matchString ps args

/-- `validateParameters` from `http_client.go` (ToolHandler). -/
def validateParameters (matchString : String → String → Except String Bool)
    (tool : ToolConfig) (args : ArgMap) : Except String ArgMap :=
  validateParamsLoop matchString tool.parameters args

/-- Result of `url.Parse` on the expanded endpoint: everything but the query
string is kept opaque in `path`; the query string is already split into
key/value pairs. -/
structure UrlParts where
  path : String
  query : List (String × String)

/-- One HTTP transport attempt's outcome (`http.Client.Do`): either a
response whose body is still open, or a network-level error (connection
failure, timeout) with no response — Go returns a nil `*http.Response`
exactly when the error is non-nil. -/
inductive DoResult where
  | ok (statusCode : Int) (headers : List (String × List String)) (body : String)
  | err (msg : String)

/-- A received `*http.Response`: status, headers (multi-valued, as
`http.Header`), body text, and whether `Body.Close()` has been called
(reading a closed body fails with `http.ErrBodyReadAfterClose`). -/
structure HttpResponse where
  statusCode : Int
  headers : List (String × List String)
  body : String
  bodyClosed : Bool

/-- The external collaborators of the handlers, modelled as parameters of
the embedding (see the file comment). -/
structure Deps where
  expand : String → ArgMap → Except String String
  parseURL : String → Except String UrlParts
  getenv : String → String
  jsonParse : String → Except String Value
  matchString : String → String → Except String Bool
  transport : Nat → DoResult

/-- The outbound request assembled by `buildRequest`: method, URL path,
query values, optional body, headers. -/
structure Request where
  method : String
  urlPath : String
  query : List (String × String)
  body : Option String
  headers : List (String × String)

/-- Endpoint-template step of `buildRequest`: the endpoint is expanded only
when it contains `\x7b\x7b`. -/
def expandEndpoint (deps : Deps) (tool : ToolConfig) (params : ArgMap) :
    Except String String :=
  if goStringContains tool.endpoint "\x7b\x7b" then
    match deps.expand tool.endpoint params with
    | .error e => .error ("failed to expand endpoint template: " ++ e)
    | .ok s => .ok s
  else .ok tool.endpoint

/-- Configured-query-parameter step of `buildRequest`: each configured
template value is expanded and `Set` on the query (Go ranges over the
`query_params` map; the list order stands in for the map's iteration
order, with unique keys). -/
def applyQueryParams (expand : String → ArgMap → Except String String)
    (params : ArgMap) :
    List (String × String) → List (String × String) →
    Except String (List (String × String))
  | [], q => .ok q
  | (k, v) :: rest, q =>
    match expand v params with
    | .error e => .error ("failed to expand query param " ++ k ++ ": " ++ e)
    | .ok ev => applyQueryParams expand params rest (alSet q k ev)

/-- GET auto-mapping step of `buildRequest`: for GET requests, every
declared parameter whose name is present in the argument map is `Set` as a
query value, rendered with `%v`. -/
def autoMapGetParams (params : ArgMap) :
    List ParameterConfig → List (String × String) → List (String × String)
  | [], q => q
  | p :: ps, q =>
    match alLookup params p.name with
    | some v => autoMapGetParams params ps (alSet q p.name (goFormatValue v))
    | none => autoMapGetParams params ps q

/-- Body step of `buildRequest`: a configured body template is expanded and
used verbatim for non-GET methods; otherwise non-GET methods with at least
one argument default to the JSON encoding of the whole argument map; GET
requests carry no body.  (Go's `json.Marshal` error branch cannot trigger
for JSON-decodable values and is unmodelled.) -/
def buildBody (expand : String → ArgMap → Except String String)
    (tool : ToolConfig) (params : ArgMap) : Except String (Option String) :=
  if tool.bodyTemplate ≠ "" ∧ (goToUpper tool.method) ≠ "GET" then
    match expand tool.bodyTemplate params with
    | .error e => .error ("failed to expand body template: " ++ e)
    | .ok bc => .ok (some bc)
  else if (goToUpper tool.method) ≠ "GET" ∧ params.length > 0 then
    .ok (some (jsonMarshal params))
  else .ok none

/-- Base-64 alphabet indexing for `SetBasicAuth`'s encoding. -/
def b64Char (n : Nat) : Char :=
  ("ABCDEFGHIJKLMNOPQRSTUVWXYZabcdefghijklmnopqrstuvwxyz0123456789+/".toList).getD n 'A'

/-- Standard base-64 of a byte list. -/
def b64Encode : List Nat → List Char
  | [] => []
  | [b0] => [b64Char (b0 / 4), b64Char (b0 % 4 * 16), '=', '=']
  | [b0, b1] =>
    [b64Char (b0 / 4), b64Char (b0 % 4 * 16 + b1 / 16), b64Char (b1 % 16 * 4), '=']
  | b0 :: b1 :: b2 :: rest =>
    b64Char (b0 / 4) :: b64Char (b0 % 4 * 16 + b1 / 16) ::
      b64Char (b1 % 16 * 4 + b2 / 64) :: b64Char (b2 % 64) :: b64Encode rest

/-- `http.Request.SetBasicAuth`'s Authorization header value. -/
def basicAuthValue (user pass : String) : String :=
  "Basic " ++ String.mk (b64Encode ((user ++ ":" ++ pass).toUTF8.toList.map (fun b => b.toNat)))

/-- `applyAuthentication` from `http_client.go`: injects credentials into
the header map by auth type, with environment-variable override (a set,
non-empty variable wins over the configured value). -/
def applyAuthentication (getenv : String → String) (auth : AuthConfig)
    (headers : List (String × String)) : Except String (List (String × String)) :=
  match auth.type with
  | "bearer" =>
    let token :=
      if auth.envVar ≠ "" ∧ getenv auth.envVar ≠ "" then getenv auth.envVar
      else auth.token
    if token = "" then .error "bearer token not found"
    else .ok (alSet headers "Authorization" ("Bearer " ++ token))
  | "basic" =>
    let password :=
      if auth.envVar ≠ "" ∧ getenv auth.envVar ≠ "" then getenv auth.envVar
      else auth.password
    if auth.username = "" ∨ password = "" then
      .error "basic auth credentials not found"
    else .ok (alSet headers "Authorization" (basicAuthValue auth.username password))
  | "api_key" =>
    .ok (auth.headers.foldl
      (fun hs kv =>
        let fin :=
          if auth.envVar ≠ "" ∧ getenv auth.envVar ≠ "" then getenv auth.envVar
          else kv.2
        alSet hs kv.1 fin)
      headers)
  | "custom" =>
    .ok (auth.headers.foldl (fun hs kv => alSet hs kv.1 kv.2) headers)
  | _ => .ok headers

/-- Configured-header step of `buildRequest`: each configured header value
is expanded and `Set` (list order stands in for map iteration order). -/
def applyConfigHeaders (expand : String → ArgMap → Except String String)
    (params : ArgMap) :
    List (String × String) → List (String × String) →
    Except String (List (String × String))
  | [], hs => .ok hs
  | (k, v) :: rest, hs =>
    match expand v params with
    | .error e => .error ("failed to expand header " ++ k ++ ": " ++ e)
    | .ok ev => applyConfigHeaders expand params rest (alSet hs k ev)

/-- Header assembly of `buildRequest`, in source order: Content-Type when a
content type is configured and a body exists, the default User-Agent and
Accept headers, the configured headers, then authentication. -/
def buildHeaders (deps : Deps) (tool : ToolConfig) (params : ArgMap)
    (body : Option String) : Except String (List (String × String)) :=
  let h0 : List (String × String) := []
  let h1 :=
    if tool.contentType ≠ "" ∧ body.isSome then
      alSet h0 "Content-Type" tool.contentType
    else h0
  let h2 := alSet h1 "User-Agent" "MCP-Server/1.0.0"
  let h3 := alSet h2 "Accept" "application/json, text/plain, */*"
  match applyConfigHeaders deps.expand params tool.headers h3 with
  | .error e => .error e
  | .ok h4 =>
    match tool.auth with
    | some a =>
      match applyAuthentication deps.getenv a h4 with
      | .error e => .error ("failed to apply authentication: " ++ e)
      | .ok h5 => .ok h5
    | none => .ok h4

/-- `buildRequest` from `http_client.go`: endpoint expansion, URL parse,
configured query parameters, GET auto-mapping, body, headers and auth. -/
def buildRequest (deps : Deps) (tool : ToolConfig) (params : ArgMap) :
    Except String Request :=
  match expandEndpoint deps tool params with
  | .error e => .error e
  | .ok expandedEndpoint =>
    match deps.parseURL expandedEndpoint with
    | .error e => .error ("invalid endpoint URL: " ++ e)
    | .ok url =>
      match applyQueryParams deps.expand params tool.queryParams url.query with
      | .error e => .error e
      | .ok q1 =>
        match buildBody deps.expand tool params with
        | .error e => .error e
        | .ok body =>
          match buildHeaders deps tool params body with
          | .error e => .error e
          | .ok headers =>
            .ok ⟨goToUpper tool.method, url.path,
                 (if goToUpper tool.method = "GET"
                  then autoMapGetParams params tool.parameters q1 else q1),
                 body, headers⟩

/-- `isSuccessStatusCode` from `http_client.go`: an explicit allow-list of
status codes decides success when configured, otherwise any 2xx status. -/
def isSuccessStatusCode (statusCode : Int) (validation : Option ValidationConfig) :
    Bool :=
  match validation with
  | some v =>
    if v.statusCodes.length > 0 then v.statusCodes.contains statusCode
    else decide (200 ≤ statusCode) && decide (statusCode < 300)
  | none => decide (200 ≤ statusCode) && decide (statusCode < 300)

/-- State of `ExecuteRequest`'s retry loop after it ends: the `resp` and
`lastErr` variables (each reassigned by every attempt, so only the last
attempt's outcome survives) and how many transport sends were made. -/
structure LoopOut where
  resp : Option HttpResponse
  lastErr : Option String
  sends : Nat

/-- The retry loop of `ExecuteRequest`, recursing on remaining iterations
(`fuel = retries + 1 − attempt` at entry).  A response classified
successful breaks out with its body open; any other attempt closes the
response body (when one exists) and, unless it was the last, retries.
Backoff sleeps are timing-only and unmodelled. -/
def execAttempts (transport : Nat → DoResult)
    (validation : Option ValidationConfig) : Nat → Nat → LoopOut
  | _attempt, 0 => ⟨none, none, 0⟩
  | attempt, rest + 1 =>
    match transport attempt with
    | .ok statusCode headers body =>
      if isSuccessStatusCode statusCode validation then
        ⟨some ⟨statusCode, headers, body, false⟩, none, 1⟩
      else
        if rest = 0 then ⟨some ⟨statusCode, headers, body, true⟩, none, 1⟩
        else
          let out := execAttempts transport validation (attempt + 1) rest
          ⟨out.resp, out.lastErr, out.sends + 1⟩
    | .err msg =>
      if rest = 0 then ⟨none, some msg, 1⟩
      else
        let out := execAttempts transport validation (attempt + 1) rest
        ⟨out.resp, out.lastErr, out.sends + 1⟩

/-- Reading a response body (`io.ReadAll(resp.Body)`): a closed body yields
Go's `http.ErrBodyReadAfterClose`. -/
def readBody (r : HttpResponse) : Except String String :=
  if r.bodyClosed then
    .error "failed to read response body: http: read on closed response body"
  else .ok r.body

/-- `http.Header.Get`: the first value for the key, or the empty string
(Go's case-insensitive canonicalisation is modelled as exact match). -/
def headerGet (headers : List (String × List String)) (key : String) : String :=
  match alLookup headers key with
  | some (v :: _) => v
  | _ => ""

/-- APIResponse from `http_client.go`: status, single-valued headers, raw
body text, and the parsed JSON payload when one exists (Go's nil
`interface\x7b\x7d` — no payload, parse failure, or JSON null — is `none`). -/
structure APIResponse where
  statusCode : Int
  headers : List (String × String)
  body : String
  data : Option Value

/-- Required-field loop of `validateResponse`: first missing field is the
error. -/
def checkRequiredFields (fields : List (String × Value)) :
    List String → Except String Unit
  | [] => .ok ()
  | f :: rest =>
    if (alLookup fields f).isSome then checkRequiredFields fields rest
    else .error ("required field " ++ f ++ " missing from response")

/-- `validateResponse` from `http_client.go`: the status code must be in
the allow-list when one is configured; when required fields are configured
and a structured payload exists, the payload must be a JSON object holding
every required field.  (Go guards the field check with `resp.Data != nil`;
the structure of that guard is kept: no payload means no field check.) -/
def validateResponse (resp : APIResponse) (validation : ValidationConfig) :
    Except String Unit :=
  let statusStep : Except String Unit :=
    if validation.statusCodes.length > 0 then
      if validation.statusCodes.contains resp.statusCode then .ok ()
      else .error ("unexpected status code " ++ toString resp.statusCode)
    else .ok ()
  match statusStep with
  | .error e => .error e
  | .ok _ =>
    match resp.data with
    | some d =>
      if validation.requiredFields.length > 0 then
        match d with
        | .vObj fields => checkRequiredFields fields validation.requiredFields
        | _ => .error "response is not a JSON object"
      else .ok ()
    | none => .ok ()

/-- `processResponse` from `http_client.go`: read the body, copy the first
value of each header, parse the body as JSON when the content type says so
(a parse failure is non-fatal and leaves no structured payload; a JSON
null is Go's nil interface and likewise leaves `data` empty), then apply
the configured response validation. -/
def processResponse (jsonParse : String → Except String Value)
    (resp : HttpResponse) (tool : ToolConfig) : Except String APIResponse :=
  match readBody resp with
  | .error e => .error e
  | .ok bodyStr =>
    let headers := resp.headers.filterMap
      (fun kv => match kv.2 with
        | [] => none
        | v :: _ => some (kv.1, v))
    let contentType := headerGet resp.headers "Content-Type"
    let data : Option Value :=
      if goStringContains contentType "application/json" = true ∧ bodyStr ≠ "" then
        match jsonParse bodyStr with
        | .error _ => none
        | .ok v =>
          match v with
          | .vNull => none
          | _ => some v
      else none
    let apiResp : APIResponse := ⟨resp.statusCode, headers, bodyStr, data⟩
    match tool.validation with
    | some v =>
      match validateResponse apiResp v with
      | .error e => .error ("response validation failed: " ++ e)
      | .ok _ => .ok apiResp
    | none => .ok apiResp

/-- Outcome of `ExecuteRequest` together with the number of transport
sends it performed. -/
structure ExecOut where
  result : Except String APIResponse
  sends : Nat

/-- `ExecuteRequest` from `http_client.go`.  The request is rebuilt each
attempt in Go, but building is a pure function of the tool, arguments and
environment, so it is hoisted out of the loop; a build failure aborts with
zero sends.  After the loop: a surviving network error fails the call
naming the total attempt count; otherwise the last response — whose body
the loop closed unless it was classified successful — goes to
`processResponse`. -/
def ExecuteRequest (deps : Deps) (tool : ToolConfig) (params : ArgMap) :
    ExecOut :=
  match buildRequest deps tool params with
  | .error e => ⟨.error ("failed to build request: " ++ e), 0⟩
  | .ok _req =>
    let out := execAttempts deps.transport tool.validation 0 (tool.retries + 1)
    match out.lastErr with
    | some msg =>
      ⟨.error ("request failed after " ++ toString (tool.retries + 1)
        ++ " attempts: " ++ msg), out.sends⟩
    | none =>
      match out.resp with
      | none =>
        -- Unreachable: the loop runs retries + 1 ≥ 1 iterations, and every
        -- iteration sets resp or lastErr.  (Go would dereference nil here.)
        ⟨.error "request failed after 0 attempts", out.sends⟩
      | some r =>
        match processResponse deps.jsonParse r tool with
        | .error e => ⟨.error ("failed to process response: " ++ e), out.sends⟩
        | .ok apiResp => ⟨.ok apiResp, out.sends⟩

/-- An `mcp.CallToolResult` whose content is a single text block:
`errorText` is `mcp.NewToolResultError` (IsError set), `text` is
`mcp.NewToolResultText`. -/
inductive ToolResult where
  | text (s : String)
  | errorText (s : String)

/-- Go `json.MarshalIndent(data, "", "  ")` on the structured payload.
Indentation whitespace is not modelled (no claim reads it); the encoding
itself is `jsonEncodeValue`. -/
def jsonMarshalIndent (v : Value) : String :=
  jsonEncodeValue v

/-- `convertResponseToMCPResult` from `http_client.go`: a status of 400 or
above becomes a tool-level error result; otherwise the body is formatted by
the declared return type (`string` returns the raw body; `object`/`array`
and the default prefer the pretty-printed structured payload, falling back
to the raw body). -/
def convertResponseToMCPResult (resp : APIResponse) (tool : ToolConfig) :
    ToolResult :=
  if 400 ≤ resp.statusCode then
    .errorText ("HTTP Error " ++ toString resp.statusCode ++ ": " ++ resp.body)
  else
    match tool.returnType with
    | "string" => .text resp.body
    | "object" =>
      match resp.data with
      | some d => .text (jsonMarshalIndent d)
      | none => .text resp.body
    | "array" =>
      match resp.data with
      | some d => .text (jsonMarshalIndent d)
      | none => .text resp.body
    | _ =>
      match resp.data with
      | some d => .text (jsonMarshalIndent d)
      | none => .text resp.body

/-- The tool registry lookup `h.tools[toolName]` (a read-only map from tool
name to configuration, built once at startup). -/
def findTool (tools : List ToolConfig) (name : String) : Option ToolConfig :=
  tools.find? (fun t => t.name = name)

/-- Outcome of `ExecuteTool`: the Go return value, the argument map after
validation (Go mutates the caller's map in place), and the transport send
count of the call. -/
structure ToolExecOut where
  result : Except String ToolResult
  args : ArgMap
  sends : Nat

/-- `ExecuteTool` from `http_client.go` (ToolHandler): registry lookup,
parameter validation, HTTP execution.  An execution failure becomes a
tool-level error result (`mcp.NewToolResultError`) with a nil Go error;
an unknown tool or a validation failure is returned as a Go error. -/
def ExecuteTool (deps : Deps) (tools : List ToolConfig) (toolName : String)
    (args : ArgMap) : ToolExecOut :=
  match findTool tools toolName with
  | none => ⟨.error ("tool " ++ toolName ++ " not found"), args, 0⟩
  | some tool =>
    match validateParameters deps.matchString tool args with
    | .error e => ⟨.error ("parameter validation failed: " ++ e), args, 0⟩
    | .ok args' =>
      let out := ExecuteRequest deps tool args'
      match out.result with
      | .error e =>
        ⟨.ok (.errorText (tool.method ++ " " ++ tool.endpoint ++ " failed: " ++ e)),
          args', out.sends⟩
      | .ok resp => ⟨.ok (convertResponseToMCPResult resp tool), args', out.sends⟩

/-- A decoded JSON-RPC 2.0 request: correlation id (`Value.vNull` when the
field is absent or null), method name, optional params (absent or null
params are `none`). -/
structure RpcRequest where
  id : Value
  method : String
  params : Option Value

/-- The JSON-RPC 2.0 response envelope: exactly one of result or error. -/
inductive Envelope where
  | result (id : Value) (payload : Value)
  | rpcErr (id : Value) (code : Int) (message : String) (data : Value)

/-- What one `ServeHTTP` call writes: the HTTP transport status and, for
JSON-RPC traffic, the envelope (the CORS preflight answer carries none). -/
structure HttpOut where
  httpStatus : Nat
  envelope : Option Envelope

/-- `writeSuccess` from `jsonrpc_handler.go`: HTTP 200 and a result
envelope. -/
def writeSuccess (id : Value) (result : Value) : HttpOut :=
  ⟨200, some (.result id result)⟩

/-- `writeError` from `jsonrpc_handler.go`: HTTP 200 (JSON-RPC errors still
use 200 OK) and an error envelope. -/
def writeError (id : Value) (code : Int) (message : String) (data : Value) :
    HttpOut :=
  ⟨200, some (.rpcErr id code message data)⟩

/-- ServerConfig metadata used by `handleInitialize`. -/
structure ServerConfig where
  name : String
  version : String

/-- PromptConfig argument from `internal/config/types.go`. -/
structure PromptArgumentConfig where
  name : String
  description : String
  required : Bool

/-- PromptConfig from `internal/config/types.go`. -/
structure PromptConfig where
  name : String
  description : String
  content : String
  arguments : List PromptArgumentConfig := []

/-- ResourceConfig from `internal/config/types.go`. -/
structure ResourceConfig where
  uri : String
  name : String
  description : String := ""
  mimeType : String := ""
  content : String := ""
  filePath : String := ""
  url : String := ""

/-- The server configuration the dispatcher reads. -/
structure Config where
  server : ServerConfig
  tools : List ToolConfig := []
  prompts : List PromptConfig := []
  resources : List ResourceConfig := []

/-- `handleInitialize`'s result value: fixed protocol version, capability
flags and server identity. -/
def initializeResult (cfg : Config) : Value :=
  .vObj
    [("protocolVersion", .vStr "2024-11-05"),
     ("capabilities", .vObj
       [("tools", .vObj [("listChanged", .vBool true)]),
        ("prompts", .vObj [("listChanged", .vBool true)]),
        ("resources", .vObj [("listChanged", .vBool true)])]),
     ("serverInfo", .vObj
       [("name", .vStr cfg.server.name),
        ("version", .vStr cfg.server.version)]),
     ("instructions", .vStr "MCP Server ready for tool, prompt, and resource operations")]

/-- Per-parameter JSON-schema property built by `handleToolsList`
(field order stands in for Go's map; `minLength` and friends only for
string parameters, `minimum`/`maximum` only for number parameters). -/
def paramPropSchema (p : ParameterConfig) : Value :=
  let base : List (String × Value) :=
    [("type", .vStr p.type), ("description", .vStr p.description)]
  let base :=
    match p.default with
    | some d => base ++ [("default", d)]
    | none => base
  let base :=
    match p.validation with
    | none => base
    | some pv =>
      if p.type = "string" then
        let base :=
          match pv.minLength with
          | some m => base ++ [("minLength", .vNum (m : Rat))]
          | none => base
        let base :=
          match pv.maxLength with
          | some m => base ++ [("maxLength", .vNum (m : Rat))]
          | none => base
        let base :=
          match pv.pattern with
          | some pat => base ++ [("pattern", .vStr pat)]
          | none => base
        if pv.enum.length > 0 then
          base ++ [("enum", .vArr (pv.enum.map .vStr))]
        else base
      else if p.type = "number" then
        let base :=
          match pv.minValue with
          | some m => base ++ [("minimum", .vNum m)]
          | none => base
        match pv.maxValue with
        | some m => base ++ [("maximum", .vNum m)]
        | none => base
      else base
  .vObj base

/-- One tool's input schema as `handleToolsList` builds it. -/
def toolInputSchema (tool : ToolConfig) : Value :=
  let properties := tool.parameters.map (fun p => (p.name, paramPropSchema p))
  let required := (tool.parameters.filter (fun p => p.required)).map (fun p => p.name)
  let schema : List (String × Value) :=
    [("type", .vStr "object"), ("properties", .vObj properties)]
  let schema :=
    if required.length > 0 then schema ++ [("required", .vArr (required.map .vStr))]
    else schema
  .vObj schema

/-- `handleToolsList`'s result value. -/
def toolsListResult (cfg : Config) : Value :=
  .vObj [("tools", .vArr (cfg.tools.map (fun t =>
    .vObj [("name", .vStr t.name), ("description", .vStr t.description),
           ("inputSchema", toolInputSchema t)])))]

/-- `handlePromptsList`'s result value. -/
def promptsListResult (cfg : Config) : Value :=
  .vObj [("prompts", .vArr (cfg.prompts.map (fun p =>
    .vObj [("name", .vStr p.name), ("description", .vStr p.description),
           ("arguments", .vArr (p.arguments.map (fun a =>
             .vObj [("name", .vStr a.name), ("description", .vStr a.description),
                    ("required", .vBool a.required)])))])))]

/-- `handleResourcesList`'s result value. -/
def resourcesListResult (cfg : Config) : Value :=
  .vObj [("resources", .vArr (cfg.resources.map (fun r =>
    .vObj [("uri", .vStr r.uri), ("name", .vStr r.name),
           ("description", .vStr r.description), ("mimeType", .vStr r.mimeType)])))]

/-- Decoding of `tools/call` params into `\x7bname, arguments\x7d`
(`json.Marshal` then `json.Unmarshal` into the handler's struct): absent
params decode to zero values, an absent or null field to its zero value, a
field of the wrong shape — or params that are not an object — to an
unmarshal error. -/
def decodeToolsCallParams : Option Value → Except String (String × ArgMap)
  | none => .ok ("", [])
  | some (.vObj fields) => do
    let name ←
      match alLookup fields "name" with
      | some (.vStr s) => pure s
      | some .vNull => pure ""
      | none => pure ""
      | some _ => throw "json: cannot unmarshal value into Go struct field .name of type string"
    let args ←
      match alLookup fields "arguments" with
      | some (.vObj afs) => pure afs
      | some .vNull => pure ([] : ArgMap)
      | none => pure ([] : ArgMap)
      | some _ => throw "json: cannot unmarshal value into Go struct field .arguments of type map[string]interface \x7b\x7d"
    pure (name, args)
  | some _ => .error "json: cannot unmarshal value into Go value of type struct"

/-- `handleToolsCall` from `jsonrpc_handler.go`: decode params (a decode
failure is an invalid-params error), run `ExecuteTool`, and map its
outcome: a Go error or an IsError result both become a `-32000`
"Tool execution error" JSON-RPC error; a plain text result becomes a result
envelope with one text content block. -/
def handleToolsCall (deps : Deps) (tools : List ToolConfig) (req : RpcRequest) :
    HttpOut :=
  match decodeToolsCallParams req.params with
  | .error e => writeError req.id (-32602) "Invalid params" (.vStr e)
  | .ok (name, args) =>
    match (ExecuteTool deps tools name args).result with
    | .error e =>
      writeError req.id (-32000) "Tool execution error"
        (.vStr ("Failed to execute tool '" ++ name ++ "': " ++ e))
    | .ok r =>
      match r with
      | .errorText s => writeError req.id (-32000) "Tool execution error" (.vStr s)
      | .text s =>
        writeSuccess req.id
          (.vObj [("content", .vArr [.vObj [("type", .vStr "text"), ("text", .vStr s)]])])

/-- Decoding of `prompts/get` params (`\x7bname, arguments\x7d` with string
argument values).  Go ignores the unmarshal error here, leaving zero
values; a wrong-shaped field is modelled by its zero value. -/
def decodePromptsGetParams : Option Value → String × List (String × String)
  | some (.vObj fields) =>
    (match alLookup fields "name" with
     | some (.vStr s) => s
     | _ => "",
     match alLookup fields "arguments" with
     | some (.vObj afs) =>
       afs.filterMap (fun kv =>
         match kv.2 with
         | .vStr s => some (kv.1, s)
         | _ => none)
     | _ => [])
  | _ => ("", [])

/-- `handlePromptsGet` from `jsonrpc_handler.go`: find the prompt by name
(first match), substitute each argument's `\x7bkey\x7d` placeholder in the
content, and return a one-message result; an unknown prompt is an
invalid-params error. -/
def handlePromptsGet (cfg : Config) (req : RpcRequest) : HttpOut :=
  let decoded := decodePromptsGetParams req.params
  match cfg.prompts.find? (fun p => p.name = decoded.1) with
  | none =>
    writeError req.id (-32602) "Invalid params"
      (.vStr ("Prompt '" ++ decoded.1 ++ "' not found"))
  | some pc =>
    let content := decoded.2.foldl
      (fun c kv => c.replace ("\x7b" ++ kv.1 ++ "\x7d") kv.2) pc.content
    writeSuccess req.id
      (.vObj [("description", .vStr pc.description),
              ("messages", .vArr [.vObj
                [("role", .vStr "user"),
                 ("content", .vObj [("type", .vStr "text"), ("text", .vStr content)])]])])

/-- Decoding of `resources/read` params (Go ignores the unmarshal error). -/
def decodeResourcesReadParams : Option Value → String
  | some (.vObj fields) =>
    match alLookup fields "uri" with
    | some (.vStr s) => s
    | _ => ""
  | _ => ""

/-- `handleResourcesRead` from `jsonrpc_handler.go`: find the resource by
URI (first match), fall back to placeholder content for file/URL-backed
resources, and return its contents; an unknown URI is an invalid-params
error. -/
def handleResourcesRead (cfg : Config) (req : RpcRequest) : HttpOut :=
  let uri := decodeResourcesReadParams req.params
  match cfg.resources.find? (fun r => r.uri = uri) with
  | none =>
    writeError req.id (-32602) "Invalid params"
      (.vStr ("Resource '" ++ uri ++ "' not found"))
  | some rc =>
    let content := rc.content
    let content :=
      if content = "" ∧ rc.filePath ≠ "" then "File content would be loaded here"
      else content
    let content :=
      if content = "" ∧ rc.url ≠ "" then "URL content would be fetched here"
      else content
    writeSuccess req.id
      (.vObj [("contents", .vArr [.vObj
        [("uri", .vStr rc.uri), ("mimeType", .vStr rc.mimeType),
         ("text", .vStr content)]])])

/-- What `ServeHTTP` receives: the HTTP verb and the JSON-RPC request if
the body decoded (a JSON decode failure is `none`). -/
structure HttpIn where
  httpMethod : String
  body : Option RpcRequest

/-- `ServeHTTP` from `jsonrpc_handler.go`: CORS preflight answers 204 with
no envelope; non-POST verbs, undecodable bodies and unknown methods are
JSON-RPC errors; known methods route to their handlers.  The parse-error
data string stands in for the decoder's message. -/
def ServeHTTP (deps : Deps) (cfg : Config) (input : HttpIn) : HttpOut :=
  if input.httpMethod = "OPTIONS" then ⟨204, none⟩
  else if input.httpMethod ≠ "POST" then
    writeError .vNull (-32600) "Invalid Request" (.vStr "Only POST method is allowed")
  else
    match input.body with
    | none => writeError .vNull (-32700) "Parse error" (.vStr "invalid JSON")
    | some req =>
      match req.method with
      | "initialize" => writeSuccess req.id (initializeResult cfg)
      | "initialized" => writeSuccess req.id (.vObj [])
      | "tools/list" => writeSuccess req.id (toolsListResult cfg)
      | "tools/call" => handleToolsCall deps cfg.tools req
      | "prompts/list" => writeSuccess req.id (promptsListResult cfg)
      | "prompts/get" => handlePromptsGet cfg req
      | "resources/list" => writeSuccess req.id (resourcesListResult cfg)
      | "resources/read" => handleResourcesRead cfg req
      | "ping" => writeSuccess req.id (.vObj [])
      | m => writeError req.id (-32601) "Method not found" (.vStr ("Unknown method: " ++ m))

/-! Concrete instances used by witnesses and counterexamples: an identity
template expander (a template with no placeholders expands to itself), a
URL parser for endpoints without a query string, an empty environment, a
JSON decoder that rejects its input (the bodies below are not JSON), a
regex matcher that accepts (no witness uses patterns), and two upstreams —
one always answering 500, one always unreachable. -/

/-- Template expansion for placeholder-free templates. -/
def idExpand : String → ArgMap → Except String String := fun t _ => .ok t

/-- URL parsing for endpoints that carry no query string. -/
def plainParseURL : String → Except String UrlParts := fun s => .ok ⟨s, []⟩

/-- An environment with no variables set. -/
def noEnv : String → String := fun _ => ""

/-- A JSON decoder rejecting every body (the concrete bodies are not JSON). -/
def failJsonParse : String → Except String Value := fun _ => .error "invalid character"

/-- A regex matcher that accepts everything (no concrete case uses patterns). -/
def okMatchString : String → String → Except String Bool := fun _ _ => .ok true

/-- An upstream that always answers HTTP 500. -/
def transport500 : Nat → DoResult := fun _ => .ok 500 [] "Internal Server Error"

/-- An upstream that is never reachable. -/
def transportDown : Nat → DoResult := fun _ => .err "connection refused"

/-- Dependencies against the always-500 upstream. -/
def deps500 : Deps :=
  ⟨idExpand, plainParseURL, noEnv, failJsonParse, okMatchString, transport500⟩

/-- Dependencies against the unreachable upstream. -/
def depsDown : Deps :=
  ⟨idExpand, plainParseURL, noEnv, failJsonParse, okMatchString, transportDown⟩

/-- A required string parameter named `id`. -/
def paramId : ParameterConfig := { name := "id", type := "string", required := true }

/-- A GET tool with one required parameter and no retries. -/
def toolGetItem : ToolConfig :=
  { name := "get_item", endpoint := "http://upstream.test/item", method := "GET",
    parameters := [paramId] }

/-- A GET tool with an explicit response-validation block requiring an
`id` field. -/
def toolChecked : ToolConfig :=
  { name := "get_checked", endpoint := "http://upstream.test/item", method := "GET",
    parameters := [paramId], validation := some { requiredFields := ["id"] } }

/-- A POST tool with no declared parameters and no body template. -/
def toolPost : ToolConfig :=
  { name := "create_item", endpoint := "http://upstream.test/items", method := "POST" }

/-- The GET tool with two retries configured. -/
def toolRetry : ToolConfig :=
  { name := "get_retry", endpoint := "http://upstream.test/item", method := "GET",
    parameters := [paramId], retries := 2 }

/-- A POST tool with one required number parameter. -/
def toolNum : ToolConfig :=
  { name := "convert", endpoint := "http://upstream.test/convert", method := "POST",
    parameters := [{ name := "n", type := "number", required := true }] }

/-- A GET tool with two configured query parameters, one of which collides
with the declared parameter `id`. -/
def toolMerge : ToolConfig :=
  { name := "get_merge", endpoint := "http://upstream.test/item", method := "GET",
    queryParams := [("limit", "10"), ("id", "base")], parameters := [paramId] }

/-- The dispatcher configuration the concrete scenarios run against. -/
def cfgCx : Config := ⟨⟨"srv", "1.0.0"⟩, [toolGetItem], [], []⟩

/-- A `tools/call` of `get_item` with its argument supplied. -/
def rpcCall500 : RpcRequest :=
  ⟨.vNum 1, "tools/call",
    some (.vObj [("name", .vStr "get_item"), ("arguments", .vObj [("id", .vStr "42")])])⟩

/-- A `tools/call` of `get_item` with an empty argument object. -/
def rpcCallMissing : RpcRequest :=
  ⟨.vNum 2, "tools/call",
    some (.vObj [("name", .vStr "get_item"), ("arguments", .vObj [])])⟩

/-- Total extraction from an `Except` with a fallback, for stating witness
facts about computed values. -/
def exceptOk {ε α : Type} (d : α) : Except ε α → α
  | .ok a => a
  | .error _ => d

/-- Fallback request for `exceptOk`. -/
def reqDefault : Request := ⟨"", "", [], none, []⟩

/-- Whether attempt `i` is not classified successful: a transport error, or
a response whose status fails `isSuccessStatusCode`. -/
def attemptFails (transport : Nat → DoResult)
    (validation : Option ValidationConfig) (i : Nat) : Bool :=
  match transport i with
  | .err _ => true
  | .ok statusCode _ _ => ! isSuccessStatusCode statusCode validation

/-! Association-list (Go map) lemmas. -/

theorem alLookup_alSet_self {α : Type} (m : List (String × α)) (k : String) (v : α) :
    alLookup (alSet m k v) k = some v := by
  induction m with
  | nil => simp [alSet, alLookup]
  | cons kv rest ih =>
    obtain ⟨k0, v0⟩ := kv
    by_cases h : k0 = k <;> simp [alSet, alLookup, h, ih]

theorem alLookup_alSet_ne {α : Type} (m : List (String × α)) (k k' : String) (v : α)
    (h : k' ≠ k) : alLookup (alSet m k v) k' = alLookup m k' := by
  have hkk : ¬ k = k' := fun he => h he.symm
  induction m with
  | nil => simp [alSet, alLookup, hkk]
  | cons kv rest ih =>
    obtain ⟨k0, v0⟩ := kv
    by_cases h0 : k0 = k
    · subst h0
      simp [alSet, alLookup, hkk]
    · simp [alSet, alLookup, h0, ih]

theorem alLookup_alErase_ne {α : Type} (m : List (String × α)) (k k' : String)
    (h : k' ≠ k) : alLookup (alErase m k) k' = alLookup m k' := by
  have hkk : ¬ k = k' := fun he => h he.symm
  induction m with
  | nil => simp [alErase]
  | cons kv rest ih =>
    obtain ⟨k0, v0⟩ := kv
    by_cases h0 : k0 = k
    · subst h0
      simp [alErase, alLookup, hkk]
    · simp [alErase, alLookup, h0, ih]

theorem alErase_alSet_comm {α : Type} (m : List (String × α)) (k name : String)
    (d : α) (h : name ≠ k) :
    alErase (alSet m name d) k = alSet (alErase m k) name d := by
  have hnk : ¬ name = k := h
  induction m with
  | nil => simp [alSet, alErase, hnk]
  | cons kv rest ih =>
    obtain ⟨k0, v0⟩ := kv
    by_cases h0 : k0 = k
    · subst h0
      have hkn : ¬ k0 = name := fun he => h he.symm
      simp [alSet, alErase, hkn, hnk]
    · by_cases h1 : k0 = name
      · subst h1
        simp [alSet, alErase, h0]
      · simp [alSet, alErase, h0, h1, ih]

theorem alLookup_some_ne_nil {α : Type} (m : List (String × α)) (k : String) (v : α)
    (h : alLookup m k = some v) : m ≠ [] := by
  cases m with
  | nil => simp [alLookup] at h
  | cons kv rest => simp

/-! Retry-loop lemmas. -/

theorem execAttempts_sends (transport : Nat → DoResult)
    (validation : Option ValidationConfig)
    (hfail : ∀ i, attemptFails transport validation i = true) :
    ∀ fuel attempt, (execAttempts transport validation attempt fuel).sends = fuel := by
  intro fuel
  induction fuel with
  | zero => intro attempt; rfl
  | succ rest ih =>
    intro attempt
    have hf := hfail attempt
    unfold attemptFails at hf
    unfold execAttempts
    cases htr : transport attempt with
    | ok st hs b =>
      rw [htr] at hf
      have hsucc : isSuccessStatusCode st validation = false := by
        simpa using hf
      by_cases hr : rest = 0 <;> simp [hsucc, hr, ih]
    | err msg =>
      by_cases hr : rest = 0 <;> simp [hr, ih]

/-! Decomposition of a successful `buildRequest` into its stages. -/

theorem buildRequest_ok_parts (deps : Deps) (tool : ToolConfig) (args : ArgMap)
    (req : Request) (hbuild : buildRequest deps tool args = .ok req) :
    ∃ ep url q1,
      expandEndpoint deps tool args = .ok ep ∧
      deps.parseURL ep = .ok url ∧
      applyQueryParams deps.expand args tool.queryParams url.query = .ok q1 ∧
      buildBody deps.expand tool args = .ok req.body ∧
      req.query = (if goToUpper tool.method = "GET"
                   then autoMapGetParams args tool.parameters q1 else q1) ∧
      req.method = goToUpper tool.method := by
  unfold buildRequest at hbuild
  split at hbuild
  · simp at hbuild
  next ep heq =>
    split at hbuild
    · simp at hbuild
    next url heq2 =>
      split at hbuild
      · simp at hbuild
      next q1 heq3 =>
        split at hbuild
        · simp at hbuild
        next body heq4 =>
          split at hbuild
          · simp at hbuild
          next hdrs heq5 =>
            simp only [Except.ok.injEq] at hbuild
            subst hbuild
            exact ⟨ep, url, q1, heq, heq2, heq3, heq4, rfl, rfl⟩

/-- Claim C3: for every ToolDescriptor with `retries = r` (0 ≤ r ≤ 5) whose
request builds, against an upstream for which no attempt is classified
successful, the executor performs exactly `r + 1` transport sends and then
stops. -/
theorem c3_retries_exhaust_sends (deps : Deps) (tool : ToolConfig) (args : ArgMap)
    (req : Request) (hbuild : buildRequest deps tool args = .ok req)
    (hfail : ∀ i, attemptFails deps.transport tool.validation i = true)
    (hr : tool.retries ≤ 5) :
    (ExecuteRequest deps tool args).sends = tool.retries + 1 := by
  have hs := execAttempts_sends deps.transport tool.validation hfail (tool.retries + 1) 0
  unfold ExecuteRequest
  rw [hbuild]
  cases hl : (execAttempts deps.transport tool.validation 0 (tool.retries + 1)).lastErr with
  | some msg => simpa [hl] using hs
  | none =>
    cases hresp : (execAttempts deps.transport tool.validation 0 (tool.retries + 1)).resp with
    | none => simpa [hl, hresp] using hs
    | some r =>
      cases hp : processResponse deps.jsonParse r tool with
      | error e => simpa [hl, hresp, hp] using hs
      | ok apiResp => simpa [hl, hresp, hp] using hs

/-- Claim C3 witness: the concrete GET tool with `retries = 2` against a
never-reachable upstream performs exactly three sends. -/
theorem c3_witness :
    (ExecuteRequest depsDown toolRetry [("id", Value.vStr "42")]).sends =
      toolRetry.retries + 1 :=
  c3_retries_exhaust_sends depsDown toolRetry [("id", Value.vStr "42")]
    (exceptOk reqDefault (buildRequest depsDown toolRetry [("id", Value.vStr "42")]))
    rfl (fun _ => rfl) (by decide)

/-- Claim C4: on exhaustion with the last attempt returning an HTTP
response, the code does hand that response to `processResponse`, but the
retry loop has already closed its body, so reading it fails with Go's
`http.ErrBodyReadAfterClose` and the call errors out instead of carrying
the error status and body forward: at the concrete input (the `get_item`
tool, `retries = 0`, an upstream always answering 500 with a body), the
call returns the read-on-closed-body processing error after one send,
never an outcome bearing status 500. -/
theorem c4_exhausted_response_unreadable :
    ExecuteRequest deps500 toolGetItem [("id", Value.vStr "42")] =
      ⟨.error "failed to process response: failed to read response body: http: read on closed response body",
       1⟩ := rfl

/-- Claim C7: in every built request, a configured body template with a
non-GET method gives exactly the expanded template as body; a non-GET
method with no body template and a non-empty argument map gives the JSON
encoding of the whole argument map; a GET method carries no body. -/
theorem c7_body_construction (deps : Deps) (tool : ToolConfig) (args : ArgMap)
    (req : Request) (hbuild : buildRequest deps tool args = .ok req) :
    (tool.bodyTemplate ≠ "" → goToUpper tool.method ≠ "GET" →
       ∃ bc, deps.expand tool.bodyTemplate args = .ok bc ∧ req.body = some bc) ∧
    (goToUpper tool.method ≠ "GET" → tool.bodyTemplate = "" → args.length > 0 →
       req.body = some (jsonMarshal args)) ∧
    (goToUpper tool.method = "GET" → req.body = none) := by
  obtain ⟨ep, url, q1, _, _, _, hbody, _, _⟩ :=
    buildRequest_ok_parts deps tool args req hbuild
  refine ⟨?_, ?_, ?_⟩
  · intro ht hm
    unfold buildBody at hbody
    rw [if_pos ⟨ht, hm⟩] at hbody
    cases he : deps.expand tool.bodyTemplate args with
    | error e => rw [he] at hbody; simp at hbody
    | ok bc =>
      rw [he] at hbody
      simp only [Except.ok.injEq] at hbody
      exact ⟨bc, rfl, hbody.symm⟩
  · intro hm ht hlen
    unfold buildBody at hbody
    rw [if_neg (by simp [ht]), if_pos ⟨hm, hlen⟩] at hbody
    simp only [Except.ok.injEq] at hbody
    exact hbody.symm
  · intro hm
    unfold buildBody at hbody
    rw [if_neg (by simp [hm]), if_neg (by simp [hm])] at hbody
    simp only [Except.ok.injEq] at hbody
    exact hbody.symm

/-- Claim C7 witness: the concrete POST tool with no body template and one
argument gets the JSON-encoded argument map as body. -/
theorem c7_witness :
    (exceptOk reqDefault (buildRequest deps500 toolPost [("a", Value.vNum 1)])).body =
      some (jsonMarshal [("a", Value.vNum 1)]) :=
  (c7_body_construction deps500 toolPost [("a", Value.vNum 1)]
      (exceptOk reqDefault (buildRequest deps500 toolPost [("a", Value.vNum 1)]))
      rfl).2.1 (by decide) rfl (by decide)

/-! Response-validation lemmas. -/

theorem checkRequiredFields_ok_iff (fields : List (String × Value))
    (reqs : List String) :
    checkRequiredFields fields reqs = .ok () ↔
      ∀ f ∈ reqs, (alLookup fields f).isSome = true := by
  induction reqs with
  | nil => simp [checkRequiredFields]
  | cons f rest ih =>
    by_cases h : (alLookup fields f).isSome = true <;>
      simp [checkRequiredFields, h, ih]

/-- Claim C5 counterexample: with required field `id` configured, a 200
response whose body is not JSON (no structured payload) passes processing —
the claim says it must be rejected. -/
theorem c5_counterexample :
    processResponse failJsonParse
        ⟨200, [("Content-Type", ["application/json"])], "oops", false⟩ toolChecked =
      .ok ⟨200, [("Content-Type", "application/json")], "oops", none⟩ := rfl

/-- Claim C5 (amended): response validation passes exactly when the status
code is allowed (either no allow-list, or listed) and the required-field
rule holds in the guarded form the code implements — no required fields
configured, or no structured payload at all, or a structured payload that
is a JSON object holding every required field.  In particular a response
with no structured payload (a body that did not parse as JSON) passes the
required-field check rather than being rejected. -/
theorem c5_required_fields_guarded (resp : APIResponse) (v : ValidationConfig) :
    validateResponse resp v = .ok () ↔
      ((v.statusCodes = [] ∨ resp.statusCode ∈ v.statusCodes) ∧
       (v.requiredFields = [] ∨ resp.data = none ∨
        ∃ fields, resp.data = some (.vObj fields) ∧
          ∀ f ∈ v.requiredFields, (alLookup fields f).isSome = true)) := by
  unfold validateResponse
  by_cases hsc : v.statusCodes = []
  · simp only [hsc]
    cases hd : resp.data with
    | none => simp
    | some d =>
      by_cases hrf : v.requiredFields = []
      · simp [hrf]
      · have hlen : v.requiredFields.length > 0 := by
          cases hq : v.requiredFields with
          | nil => exact absurd hq hrf
          | cons a l => simp [hq]
        cases d with
        | vObj fields =>
          simp [hrf, hlen, checkRequiredFields_ok_iff]
        | vNull => simp [hrf, hlen]
        | vBool b => simp [hrf, hlen]
        | vNum q => simp [hrf, hlen]
        | vStr s => simp [hrf, hlen]
        | vArr xs => simp [hrf, hlen]
  · have hlen : v.statusCodes.length > 0 := by
      cases hq : v.statusCodes with
      | nil => exact absurd hq hsc
      | cons a l => simp [hq]
    by_cases hmem : resp.statusCode ∈ v.statusCodes
    · have hcont : v.statusCodes.contains resp.statusCode = true := by
        simpa [List.contains] using (List.elem_iff.mpr hmem)
      simp only [hsc, hlen, if_pos hlen, hcont, if_pos rfl]
      cases hd : resp.data with
      | none => simp [hmem]
      | some d =>
        by_cases hrf : v.requiredFields = []
        · simp [hrf, hmem]
        · have hlenf : v.requiredFields.length > 0 := by
            cases hq : v.requiredFields with
            | nil => exact absurd hq hrf
            | cons a l => simp [hq]
          cases d with
          | vObj fields => simp [hrf, hlenf, checkRequiredFields_ok_iff, hmem]
          | vNull => simp [hrf, hlenf, hmem]
          | vBool b => simp [hrf, hlenf, hmem]
          | vNum q => simp [hrf, hlenf, hmem]
          | vStr s => simp [hrf, hlenf, hmem]
          | vArr xs => simp [hrf, hlenf, hmem]
    · have hcont : v.statusCodes.contains resp.statusCode = false := by
        rw [← Bool.not_eq_true]
        intro hc
        exact hmem (List.elem_iff.mp (by simpa [List.contains] using hc))
      simp [hlen, hcont, hsc, hmem]

/-! Dispatcher handler outputs all go through `writeSuccess` or
`writeError`. -/

theorem handleToolsCall_out (deps : Deps) (tools : List ToolConfig)
    (req : RpcRequest) :
    (handleToolsCall deps tools req).httpStatus = 200 ∧
    (handleToolsCall deps tools req).envelope.isSome = true := by
  unfold handleToolsCall
  cases h1 : decodeToolsCallParams req.params with
  | error e => simp [writeError]
  | ok p =>
    obtain ⟨name, args⟩ := p
    cases h2 : (ExecuteTool deps tools name args).result with
    | error e => simp [h2, writeError]
    | ok r => cases r <;> simp [h2, writeError, writeSuccess]

theorem handlePromptsGet_out (cfg : Config) (req : RpcRequest) :
    (handlePromptsGet cfg req).httpStatus = 200 ∧
    (handlePromptsGet cfg req).envelope.isSome = true := by
  unfold handlePromptsGet
  cases h : cfg.prompts.find? (fun p => p.name = (decodePromptsGetParams req.params).1) with
  | none => simp [h, writeError]
  | some pc => simp [h, writeSuccess]

theorem handleResourcesRead_out (cfg : Config) (req : RpcRequest) :
    (handleResourcesRead cfg req).httpStatus = 200 ∧
    (handleResourcesRead cfg req).envelope.isSome = true := by
  unfold handleResourcesRead
  cases h : cfg.resources.find? (fun r => r.uri = decodeResourcesReadParams req.params) with
  | none => simp [h, writeError]
  | some rc => simp [h, writeSuccess]

/-- Claim C8: every JSON-RPC response the dispatcher writes — success or
error, for every method including unknown ones — has HTTP transport status
200; only the envelope distinguishes result from error.  (The only non-200
output of `ServeHTTP` is the CORS preflight answer, which carries no
envelope.) -/
theorem c8_envelope_means_status_200 (deps : Deps) (cfg : Config) (input : HttpIn)
    (h : (ServeHTTP deps cfg input).envelope.isSome = true) :
    (ServeHTTP deps cfg input).httpStatus = 200 := by
  unfold ServeHTTP at h ⊢
  by_cases h1 : input.httpMethod = "OPTIONS"
  · rw [if_pos h1] at h
    simp at h
  · rw [if_neg h1]
    by_cases h2 : input.httpMethod ≠ "POST"
    · rw [if_pos h2]
      simp [writeError]
    · rw [if_neg h2]
      cases hb : input.body with
      | none => simp [writeError]
      | some req =>
        dsimp only
        split
        any_goals simp [writeSuccess, writeError]
        · exact (handleToolsCall_out deps cfg.tools req).1
        · exact (handlePromptsGet_out cfg req).1
        · exact (handleResourcesRead_out cfg req).1

/-- Claim C8 witness: a concrete `ping` call produces an envelope and is
delivered with status 200. -/
theorem c8_witness :
    (ServeHTTP deps500 cfgCx ⟨"POST", some ⟨.vNull, "ping", none⟩⟩).httpStatus = 200 :=
  c8_envelope_means_status_200 deps500 cfgCx ⟨"POST", some ⟨.vNull, "ping", none⟩⟩ rfl

/-! Frame lemmas about the parameter-validation loop. -/

theorem validateParamsLoop_preserves (ms : String → String → Except String Bool)
    (ps : List ParameterConfig) :
    ∀ (args m' : ArgMap), validateParamsLoop ms ps args = .ok m' →
      ∀ key v, alLookup args key = some v → alLookup m' key = some v := by
  induction ps with
  | nil =>
    intro args m' h key v hk
    simp [validateParamsLoop] at h
    subst h
    exact hk
  | cons p ps ih =>
    intro args m' h key v hk
    unfold validateParamsLoop at h
    split at h
    next w hl =>
      split at h
      · simp at h
      next u hv => exact ih args m' h key v hk
    next hl =>
      split at h
      · simp at h
      next hreq =>
        split at h
        next d hd =>
          refine ih _ m' h key v ?_
          by_cases hkey : key = p.name
          · subst hkey
            rw [hl] at hk
            cases hk
          · rw [alLookup_alSet_ne args p.name key d hkey]
            exact hk
        next hd => exact ih args m' h key v hk

theorem validateParamsLoop_new_keys (ms : String → String → Except String Bool)
    (ps : List ParameterConfig) :
    ∀ (args m' : ArgMap), validateParamsLoop ms ps args = .ok m' →
      ∀ key v, alLookup args key = none → alLookup m' key = some v →
        ∃ p, p ∈ ps ∧ p.name = key ∧ p.required = false ∧ p.default = some v := by
  induction ps with
  | nil =>
    intro args m' h key v hk hm
    simp [validateParamsLoop] at h
    subst h
    rw [hk] at hm
    cases hm
  | cons p ps ih =>
    intro args m' h key v hk hm
    unfold validateParamsLoop at h
    split at h
    next w hl =>
      split at h
      · simp at h
      next u hv =>
        obtain ⟨q, hq, h1, h2, h3⟩ := ih args m' h key v hk hm
        exact ⟨q, List.mem_cons_of_mem p hq, h1, h2, h3⟩
    next hl =>
      split at h
      · simp at h
      next hreq =>
        split at h
        next d hd =>
          by_cases hkey : key = p.name
          · subst hkey
            have hset : alLookup (alSet args p.name d) p.name = some d :=
              alLookup_alSet_self args p.name d
            have hpres := validateParamsLoop_preserves ms ps _ m' h p.name d hset
            rw [hm] at hpres
            have hvd : v = d := Option.some.inj hpres
            refine ⟨p, List.mem_cons_self p ps, rfl, ?_, ?_⟩
            · simp only [Bool.not_eq_true] at hreq
              exact hreq
            · rw [hd, hvd]
          · have hk' : alLookup (alSet args p.name d) key = none := by
              rw [alLookup_alSet_ne args p.name key d hkey]
              exact hk
            obtain ⟨q, hq, h1, h2, h3⟩ := ih _ m' h key v hk' hm
            exact ⟨q, List.mem_cons_of_mem p hq, h1, h2, h3⟩
        next hd =>
          obtain ⟨q, hq, h1, h2, h3⟩ := ih args m' h key v hk hm
          exact ⟨q, List.mem_cons_of_mem p hq, h1, h2, h3⟩

theorem validateParamsLoop_erase (ms : String → String → Except String Bool)
    (k : String) :
    ∀ (ps : List ParameterConfig) (args : ArgMap), (∀ p ∈ ps, p.name ≠ k) →
      validateParamsLoop ms ps (alErase args k) =
        (validateParamsLoop ms ps args).map (fun m => alErase m k) := by
  intro ps
  induction ps with
  | nil => intro args _; simp [validateParamsLoop, Except.map]
  | cons p ps ih =>
    intro args hk
    have hpk : p.name ≠ k := hk p (List.mem_cons_self p ps)
    have hk' : ∀ q ∈ ps, q.name ≠ k := fun q hq => hk q (List.mem_cons_of_mem p hq)
    unfold validateParamsLoop
    rw [alLookup_alErase_ne args k p.name hpk]
    cases hl : alLookup args p.name with
    | some w =>
      dsimp only
      cases hv : validateParameterValue ms p w with
      | error e => simp [Except.map]
      | ok u =>
        dsimp only
        exact ih args hk'
    | none =>
      dsimp only
      by_cases hreq : p.required = true
      · simp [hreq, Except.map]
      · simp only [if_neg hreq]
        cases hd : p.default with
        | some d =>
          dsimp only
          rw [← alErase_alSet_comm args k p.name d hpk]
          exact ih (alSet args p.name d) hk'
        | none =>
          dsimp only
          exact ih args hk'

theorem validateParamsLoop_undeclared (ms : String → String → Except String Bool)
    (k : String) :
    ∀ (ps : List ParameterConfig) (args m' : ArgMap), (∀ p ∈ ps, p.name ≠ k) →
      validateParamsLoop ms ps args = .ok m' →
      alLookup m' k = alLookup args k := by
  intro ps
  induction ps with
  | nil =>
    intro args m' _ h
    simp [validateParamsLoop] at h
    subst h
    rfl
  | cons p ps ih =>
    intro args m' hk h
    have hpk : p.name ≠ k := hk p (List.mem_cons_self p ps)
    have hk' : ∀ q ∈ ps, q.name ≠ k := fun q hq => hk q (List.mem_cons_of_mem p hq)
    unfold validateParamsLoop at h
    split at h
    next w hl =>
      split at h
      · simp at h
      next u hv => exact ih args m' hk' h
    next hl =>
      split at h
      · simp at h
      next hreq =>
        split at h
        next d hd =>
          rw [ih _ m' hk' h, alLookup_alSet_ne args p.name k d (Ne.symm hpk)]
        next hd => exact ih args m' hk' h

/-- Claim C10: parameter validation never changes or removes an entry the
caller supplied; every key it writes that was absent is a declared,
non-required parameter with a configured default, set to that default.  In
particular a numeric string accepted for a number-typed parameter remains
exactly the string the caller sent. -/
theorem c10_validation_frame (ms : String → String → Except String Bool)
    (tool : ToolConfig) (args m' : ArgMap)
    (h : validateParameters ms tool args = .ok m') :
    (∀ key v, alLookup args key = some v → alLookup m' key = some v) ∧
    (∀ key v, alLookup args key = none → alLookup m' key = some v →
       ∃ p, p ∈ tool.parameters ∧ p.name = key ∧ p.required = false ∧
         p.default = some v) :=
  ⟨fun key v hk => validateParamsLoop_preserves ms tool.parameters args m' h key v hk,
   fun key v hk hm => validateParamsLoop_new_keys ms tool.parameters args m' h key v hk hm⟩

/-- Claim C10 witness: the number-typed parameter `n`, supplied as the
numeric string `"42"`, passes validation and is still the same string in
the validated map. -/
theorem c10_witness :
    alLookup (exceptOk []
        (validateParameters okMatchString toolNum [("n", Value.vStr "42")])) "n" =
      some (Value.vStr "42") :=
  (c10_validation_frame okMatchString toolNum [("n", Value.vStr "42")]
      (exceptOk [] (validateParameters okMatchString toolNum [("n", Value.vStr "42")]))
      rfl).1 "n" (Value.vStr "42") rfl

/-! Query-merge lemmas. -/

theorem autoMap_lookup (params : ArgMap) (ps : List ParameterConfig) :
    ∀ (q : List (String × String)) (k : String),
      alLookup (autoMapGetParams params ps q) k =
        match alLookup params k with
        | some w =>
          if ps.any (fun p => p.name == k) then some (goFormatValue w)
          else alLookup q k
        | none => alLookup q k := by
  induction ps with
  | nil =>
    intro q k
    cases alLookup params k <;> simp [autoMapGetParams]
  | cons p ps ih =>
    intro q k
    by_cases hpk : p.name = k
    · subst hpk
      cases hl : alLookup params p.name with
      | some w =>
        unfold autoMapGetParams
        rw [hl, ih (alSet q p.name (goFormatValue w)) p.name, hl]
        by_cases hany : (ps.any fun p' => p'.name == p.name) = true
        · simp [hany]
        · simp only [Bool.not_eq_true] at hany
          simp [hany, alLookup_alSet_self]
      | none =>
        unfold autoMapGetParams
        rw [hl, ih q p.name, hl]
    · cases hl : alLookup params p.name with
      | some w =>
        unfold autoMapGetParams
        rw [hl, ih (alSet q p.name (goFormatValue w)) k]
        have hbk : (p.name == k) = false := by simp [hpk]
        cases hlk : alLookup params k with
        | some w' => simp [List.any_cons, hbk, alLookup_alSet_ne q p.name k _ (Ne.symm hpk)]
        | none => simp [alLookup_alSet_ne q p.name k _ (Ne.symm hpk)]
      | none =>
        unfold autoMapGetParams
        rw [hl, ih q k]
        have hbk : (p.name == k) = false := by simp [hpk]
        cases hlk : alLookup params k with
        | some w' => simp [List.any_cons, hbk]
        | none => rfl

theorem applyQueryParams_lookup_not_mem
    (expand : String → ArgMap → Except String String) (params : ArgMap) :
    ∀ (qps : List (String × String)) (q q' : List (String × String)) (k : String),
      applyQueryParams expand params qps q = .ok q' →
      (∀ kv ∈ qps, kv.1 ≠ k) →
      alLookup q' k = alLookup q k := by
  intro qps
  induction qps with
  | nil =>
    intro q q' k h _
    simp [applyQueryParams] at h
    subst h
    rfl
  | cons kv rest ih =>
    intro q q' k h hk
    obtain ⟨k0, v0⟩ := kv
    have hk0 : k0 ≠ k := hk (k0, v0) (List.mem_cons_self _ _)
    have hk' : ∀ kv ∈ rest, kv.1 ≠ k := fun kv hkv => hk kv (List.mem_cons_of_mem _ hkv)
    unfold applyQueryParams at h
    split at h
    · simp at h
    next ev he =>
      rw [ih (alSet q k0 ev) q' k h hk', alLookup_alSet_ne q k0 k ev (Ne.symm hk0)]

theorem applyQueryParams_mem
    (expand : String → ArgMap → Except String String) (params : ArgMap) :
    ∀ (qps : List (String × String)) (q q' : List (String × String)),
      applyQueryParams expand params qps q = .ok q' →
      (qps.map Prod.fst).Nodup →
      ∀ k v, (k, v) ∈ qps →
        ∃ ev, expand v params = .ok ev ∧ alLookup q' k = some ev := by
  intro qps
  induction qps with
  | nil =>
    intro q q' _ _ k v hmem
    cases hmem
  | cons kv rest ih =>
    intro q q' h hnd k v hmem
    obtain ⟨k0, v0⟩ := kv
    unfold applyQueryParams at h
    split at h
    · simp at h
    next ev0 he0 =>
      rw [List.map_cons, List.nodup_cons] at hnd
      rcases List.mem_cons.mp hmem with heq | hrest
      · have hk1 : k = k0 := congrArg Prod.fst heq
        have hv1 : v = v0 := congrArg Prod.snd heq
        subst hk1
        subst hv1
        refine ⟨ev0, he0, ?_⟩
        have hnot : ∀ kv ∈ rest, kv.1 ≠ k := by
          intro kv hkv hke
          have hx : kv.1 ∈ rest.map Prod.fst := List.mem_map_of_mem Prod.fst hkv
          rw [hke] at hx
          exact hnd.1 hx
        rw [applyQueryParams_lookup_not_mem expand params rest _ q' k h hnot]
        exact alLookup_alSet_self q k ev0
      · exact ih (alSet q k0 ev0) q' h hnd.2 k v hrest

/-- Claim C9: parameter validation inspects only declared parameter names:
an argument whose key is undeclared does not influence the outcome
(erasing it commutes with validation), survives validation unchanged, is
included in the map whose JSON encoding becomes the default non-GET body,
and is never auto-mapped into a GET query string. -/
theorem c9_undeclared_arguments (ms : String → String → Except String Bool)
    (expand : String → ArgMap → Except String String)
    (tool : ToolConfig) (args : ArgMap) (k : String) (w : Value)
    (hundecl : ∀ p ∈ tool.parameters, p.name ≠ k)
    (hk : alLookup args k = some w) :
    (validateParameters ms tool (alErase args k) =
       (validateParameters ms tool args).map (fun m => alErase m k)) ∧
    (∀ m', validateParameters ms tool args = .ok m' →
       alLookup m' k = some w ∧
       (goToUpper tool.method ≠ "GET" → tool.bodyTemplate = "" →
          buildBody expand tool m' = .ok (some (jsonMarshal m'))) ∧
       (∀ q, alLookup (autoMapGetParams m' tool.parameters q) k = alLookup q k)) := by
  constructor
  · exact validateParamsLoop_erase ms k tool.parameters args hundecl
  · intro m' h
    have hkm : alLookup m' k = some w := by
      rw [validateParamsLoop_undeclared ms k tool.parameters args m' hundecl h]
      exact hk
    refine ⟨hkm, ?_, ?_⟩
    · intro hm ht
      have hne : m' ≠ [] := alLookup_some_ne_nil m' k w hkm
      have hlen : m'.length > 0 := List.length_pos.mpr hne
      unfold buildBody
      rw [if_neg (by simp [ht]), if_pos ⟨hm, hlen⟩]
    · intro q
      have hany : (tool.parameters.any fun p => p.name == k) = false := by
        simp only [List.any_eq_false]
        intro p hp
        simp [hundecl p hp]
      rw [autoMap_lookup m' tool.parameters q k]
      cases alLookup m' k with
      | none => rfl
      | some w' => simp [hany]

/-- Claim C9 witness: the undeclared argument `extra` passes validation of
the parameterless POST tool unchanged. -/
theorem c9_witness :
    alLookup (exceptOk []
        (validateParameters okMatchString toolPost [("extra", Value.vStr "x")])) "extra" =
      some (Value.vStr "x") :=
  (((c9_undeclared_arguments okMatchString idExpand toolPost
        [("extra", Value.vStr "x")] "extra" (Value.vStr "x")
        (fun p hp => absurd hp (List.not_mem_nil p)) rfl).2
      (exceptOk [] (validateParameters okMatchString toolPost [("extra", Value.vStr "x")]))
      rfl).1)

/-- Claim C6: for every GET tool whose request builds (with the configured
query-parameter map's keys unique, as a Go map's are), the final query maps
every configured query parameter to its expanded value — unless its name is
also a declared parameter present in the argument map, in which case the
auto-mapped argument value wins, because configured query_params are applied
first and last write wins — and maps every declared parameter present in the
argument map to its `%v`-rendered argument value. -/
theorem c6_get_query_merge (deps : Deps) (tool : ToolConfig) (args : ArgMap)
    (req : Request)
    (hnd : (tool.queryParams.map Prod.fst).Nodup)
    (hget : goToUpper tool.method = "GET")
    (hbuild : buildRequest deps tool args = .ok req) :
    (∀ kv ∈ tool.queryParams, ∃ ev, deps.expand kv.2 args = .ok ev ∧
       alLookup req.query kv.1 =
         (match alLookup args kv.1 with
          | some w =>
            if tool.parameters.any (fun p => p.name == kv.1) then
              some (goFormatValue w)
            else some ev
          | none => some ev)) ∧
    (∀ p ∈ tool.parameters, ∀ w, alLookup args p.name = some w →
       alLookup req.query p.name = some (goFormatValue w)) := by
  obtain ⟨ep, url, q1, hep, hurl, hqp, _, hquery, _⟩ :=
    buildRequest_ok_parts deps tool args req hbuild
  rw [if_pos hget] at hquery
  constructor
  · intro kv hkv
    obtain ⟨ev, hev, hq1⟩ := applyQueryParams_mem deps.expand args tool.queryParams
      url.query q1 hqp hnd kv.1 kv.2 hkv
    refine ⟨ev, hev, ?_⟩
    rw [hquery, autoMap_lookup args tool.parameters q1 kv.1]
    cases hak : alLookup args kv.1 with
    | some w =>
      by_cases hany : (tool.parameters.any fun p => p.name == kv.1) = true
      · simp [hany]
      · simp only [Bool.not_eq_true] at hany
        simp [hany, hq1]
    | none => simp [hq1]
  · intro p hp w hw
    rw [hquery, autoMap_lookup args tool.parameters q1 p.name, hw]
    have hany : (tool.parameters.any fun p' => p'.name == p.name) = true :=
      List.any_eq_true.mpr ⟨p, hp, by simp⟩
    simp [hany]

/-- Claim C6 witness: in the concrete GET tool whose configured query
parameter `id` collides with the declared parameter `id` supplied as
`"42"`, the built query carries the auto-mapped argument value. -/
theorem c6_witness :
    alLookup (exceptOk reqDefault
        (buildRequest deps500 toolMerge [("id", Value.vStr "42")])).query "id" =
      some (goFormatValue (Value.vStr "42")) :=
  (c6_get_query_merge deps500 toolMerge [("id", Value.vStr "42")]
      (exceptOk reqDefault (buildRequest deps500 toolMerge [("id", Value.vStr "42")]))
      (by decide) rfl rfl).2 paramId (List.mem_cons_self paramId [])
    (Value.vStr "42") rfl

/-! The validation loop errors on the first missing required parameter when
every supplied parameter validates. -/

theorem validateParamsLoop_missing_required
    (ms : String → String → Except String Bool) :
    ∀ (ps : List ParameterConfig) (args : ArgMap),
      (ps.map (fun p => p.name)).Nodup →
      (∀ p ∈ ps, ∀ v, alLookup args p.name = some v →
         validateParameterValue ms p v = .ok ()) →
      (∃ p ∈ ps, p.required = true ∧ alLookup args p.name = none) →
      ∃ q, q ∈ ps ∧ q.required = true ∧ alLookup args q.name = none ∧
        validateParamsLoop ms ps args =
          .error ("required parameter " ++ q.name ++ " is missing") := by
  intro ps
  induction ps with
  | nil =>
    intro args _ _ hmiss
    obtain ⟨p, hp, _⟩ := hmiss
    cases hp
  | cons p ps ih =>
    intro args hnd hvalid hmiss
    rw [List.map_cons, List.nodup_cons] at hnd
    cases hl : alLookup args p.name with
    | some w =>
      have hstep : validateParamsLoop ms (p :: ps) args = validateParamsLoop ms ps args := by
        simp only [validateParamsLoop]
        rw [hl]
        dsimp only
        rw [hvalid p (List.mem_cons_self p ps) w hl]
      have hmiss' : ∃ q ∈ ps, q.required = true ∧ alLookup args q.name = none := by
        obtain ⟨q, hq, hqreq, hqnone⟩ := hmiss
        rcases List.mem_cons.mp hq with rfl | hq'
        · rw [hl] at hqnone
          cases hqnone
        · exact ⟨q, hq', hqreq, hqnone⟩
      obtain ⟨q, hq, h1, h2, h3⟩ := ih args hnd.2
        (fun q hq => hvalid q (List.mem_cons_of_mem p hq)) hmiss'
      exact ⟨q, List.mem_cons_of_mem p hq, h1, h2, by rw [hstep]; exact h3⟩
    | none =>
      by_cases hreq : p.required = true
      · have hstep : validateParamsLoop ms (p :: ps) args =
            .error ("required parameter " ++ p.name ++ " is missing") := by
          simp only [validateParamsLoop]
          rw [hl]
          dsimp only
          rw [if_pos hreq]
        exact ⟨p, List.mem_cons_self p ps, hreq, hl, hstep⟩
      · have hmiss' : ∃ q ∈ ps, q.required = true ∧ alLookup args q.name = none := by
          obtain ⟨q, hq, hqreq, hqnone⟩ := hmiss
          rcases List.mem_cons.mp hq with rfl | hq'
          · exact absurd hqreq hreq
          · exact ⟨q, hq', hqreq, hqnone⟩
        cases hd : p.default with
        | some d =>
          have hstep : validateParamsLoop ms (p :: ps) args =
              validateParamsLoop ms ps (alSet args p.name d) := by
            simp only [validateParamsLoop]
            rw [hl]
            dsimp only
            rw [if_neg hreq, hd]
          have hlook : ∀ q ∈ ps,
              alLookup (alSet args p.name d) q.name = alLookup args q.name := by
            intro q hq
            have hqne : q.name ≠ p.name := by
              intro he
              have hx : q.name ∈ ps.map (fun p => p.name) :=
                List.mem_map_of_mem (fun p => p.name) hq
              rw [he] at hx
              exact hnd.1 hx
            exact alLookup_alSet_ne args p.name q.name d hqne
          obtain ⟨q, hq, h1, h2, h3⟩ := ih (alSet args p.name d) hnd.2
            (fun q hq v hv =>
              hvalid q (List.mem_cons_of_mem p hq) v (by rw [← hlook q hq]; exact hv))
            (by
              obtain ⟨q, hq, hh1, hh2⟩ := hmiss'
              exact ⟨q, hq, hh1, by rw [hlook q hq]; exact hh2⟩)
          refine ⟨q, List.mem_cons_of_mem p hq, h1, ?_, by rw [hstep]; exact h3⟩
          rw [← hlook q hq]
          exact h2
        | none =>
          have hstep : validateParamsLoop ms (p :: ps) args =
              validateParamsLoop ms ps args := by
            simp only [validateParamsLoop]
            rw [hl]
            dsimp only
            rw [if_neg hreq, hd]
          obtain ⟨q, hq, h1, h2, h3⟩ := ih args hnd.2
            (fun q hq => hvalid q (List.mem_cons_of_mem p hq)) hmiss'
          exact ⟨q, List.mem_cons_of_mem p hq, h1, h2, by rw [hstep]; exact h3⟩

/-- Claim C2 (amended): a `tools/call` whose argument map misses a required
parameter (all supplied parameters validating, parameter names unique as
registered) performs no transport send and is answered with a JSON-RPC
error object of code -32000 and message "Tool execution error" — not the
JSON-RPC invalid-params code — whose data names the missing required
parameter. -/
theorem c2_missing_required_param (deps : Deps) (tools : List ToolConfig)
    (req : RpcRequest) (name : String) (args : ArgMap) (tool : ToolConfig)
    (hdec : decodeToolsCallParams req.params = .ok (name, args))
    (htool : findTool tools name = some tool)
    (hnd : (tool.parameters.map (fun p => p.name)).Nodup)
    (hvalid : ∀ p ∈ tool.parameters, ∀ v, alLookup args p.name = some v →
       validateParameterValue deps.matchString p v = .ok ())
    (hmiss : ∃ p ∈ tool.parameters, p.required = true ∧ alLookup args p.name = none) :
    ∃ q, q ∈ tool.parameters ∧ q.required = true ∧ alLookup args q.name = none ∧
      (ExecuteTool deps tools name args).sends = 0 ∧
      handleToolsCall deps tools req =
        writeError req.id (-32000) "Tool execution error"
          (.vStr ("Failed to execute tool '" ++ name ++ "': " ++
            ("parameter validation failed: " ++
             ("required parameter " ++ q.name ++ " is missing")))) := by
  obtain ⟨q, hq, h1, h2, h3⟩ :=
    validateParamsLoop_missing_required deps.matchString tool.parameters args hnd hvalid hmiss
  have hexec : ExecuteTool deps tools name args =
      ⟨.error ("parameter validation failed: " ++
        ("required parameter " ++ q.name ++ " is missing")), args, 0⟩ := by
    unfold ExecuteTool
    rw [htool]
    dsimp only
    unfold validateParameters
    rw [h3]
  refine ⟨q, hq, h1, h2, ?_, ?_⟩
  · rw [hexec]
  · unfold handleToolsCall
    rw [hdec]
    dsimp only
    rw [hexec]

/-- Claim C2 counterexample: the concrete `tools/call` of `get_item` with
no arguments is answered with a JSON-RPC error whose code is -32000, not
the invalid-params code -32602 the claim requires. -/
theorem c2_counterexample :
    (ServeHTTP deps500 cfgCx ⟨"POST", some rpcCallMissing⟩ =
      writeError (.vNum 2) (-32000) "Tool execution error"
        (.vStr "Failed to execute tool 'get_item': parameter validation failed: required parameter id is missing")) ∧
    (-32000 : Int) ≠ -32602 :=
  ⟨rfl, by decide⟩

/-- Claim C2 witness: the concrete missing-required call performs zero
transport sends. -/
theorem c2_witness :
    (ExecuteTool deps500 [toolGetItem] "get_item" []).sends = 0 := by
  obtain ⟨q, hq, h1, h2, hsends, hresp⟩ :=
    c2_missing_required_param deps500 [toolGetItem] rpcCallMissing "get_item" []
      toolGetItem rfl rfl (by decide)
      (by intro p hp v hv; simp [alLookup] at hv)
      ⟨paramId, List.mem_cons_self paramId [], rfl, rfl⟩
  exact hsends

/-- Claim C1 (amended): for every `tools/call` whose tool execution fails
(request could not be built, sent or validated, retries exhausted) or whose
final HTTP outcome has status ≥ 400, the dispatcher answers with a JSON-RPC
error object — code -32000, message "Tool execution error", data carrying
the tool-level error text — not with a success envelope carrying error
content; a status of 400 or above always yields the IsError tool result
that triggers this path. -/
theorem c1_tool_failures_become_rpc_errors (deps : Deps) (tools : List ToolConfig)
    (req : RpcRequest) (name : String) (args : ArgMap)
    (hdec : decodeToolsCallParams req.params = .ok (name, args))
    (hfail : (∃ e, (ExecuteTool deps tools name args).result = .error e) ∨
             (∃ s, (ExecuteTool deps tools name args).result = .ok (.errorText s))) :
    (∃ d, handleToolsCall deps tools req =
       writeError req.id (-32000) "Tool execution error" (.vStr d)) ∧
    (∀ resp tool, 400 ≤ resp.statusCode →
       convertResponseToMCPResult resp tool =
         .errorText ("HTTP Error " ++ toString resp.statusCode ++ ": " ++ resp.body)) := by
  constructor
  · rcases hfail with ⟨e, he⟩ | ⟨s, hs⟩
    · refine ⟨"Failed to execute tool '" ++ name ++ "': " ++ e, ?_⟩
      unfold handleToolsCall
      rw [hdec]
      dsimp only
      rw [he]
    · refine ⟨s, ?_⟩
      unfold handleToolsCall
      rw [hdec]
      dsimp only
      rw [hs]
  · intro resp tool h4
    unfold convertResponseToMCPResult
    rw [if_pos h4]

/-- Claim C1 counterexample: the concrete `tools/call` of `get_item`
against an upstream that always answers 500 is answered by the dispatcher
with a JSON-RPC error object (code -32000), where the claim requires a
success envelope carrying tool-level error content. -/
theorem c1_counterexample :
    ServeHTTP deps500 cfgCx ⟨"POST", some rpcCall500⟩ =
      writeError (.vNum 1) (-32000) "Tool execution error"
        (.vStr "GET http://upstream.test/item failed: failed to process response: failed to read response body: http: read on closed response body") := rfl

/-- Claim C1 witness: a 500 outcome is mapped to the IsError tool result
carrying the status and body. -/
theorem c1_witness :
    convertResponseToMCPResult ⟨500, [], "oops", none⟩ toolGetItem =
      .errorText ("HTTP Error " ++ toString (500 : Int) ++ ": " ++ "oops") :=
  (c1_tool_failures_become_rpc_errors deps500 [toolGetItem] rpcCall500 "get_item"
      [("id", Value.vStr "42")] rfl
      (Or.inr ⟨"GET http://upstream.test/item failed: failed to process response: failed to read response body: http: read on closed response body",
        rfl⟩)).2
    ⟨500, [], "oops", none⟩ toolGetItem (by decide)

end Mcp
